import Mathlib

/-!
Verification of the Aura license-key core
(`Source/Licensing/license_generator.py` and
`Source/Licensing/verify_keys.py`).

Python strings are modelled as lists of Unicode codepoints (`List Nat`).
`str.upper` is modelled codepoint-wise on the ASCII range (the repository
only ever manipulates ASCII key material); `str.strip` uses the set of
codepoints Python treats as whitespace in the ASCII/Latin-1 range together
with the common Unicode space codepoints.  Fallible operations (character
indexing, `raise`, `assert`) are modelled with `Option`/`Except`.
MD5 is implemented in full over `Nat` arithmetic modulo 2^32, following
RFC 1321, so that every definition is executable.
-/

set_option maxRecDepth 16384

namespace Aura

/-- A Python string as a list of Unicode codepoints. -/
abbrev PyStr := List Nat

/-- Codepoints of a Lean string literal, used to transcribe the literals
appearing in the Python source. -/
def pyStr (s : String) : PyStr := s.data.map Char.toNat

/-- Codepoint-wise model of Python `str.upper` (ASCII case mapping):
lowercase `a`-`z` (97-122) map down by 32, everything else is unchanged. -/
def upperChar (c : Nat) : Nat := if 97 ≤ c ∧ c ≤ 122 then c - 32 else c

/-- Model of Python `str.upper` applied to a whole string. -/
def pyUpper (s : PyStr) : PyStr := s.map upperChar

/-- The codepoints Python's `str.strip()` removes: ASCII whitespace and
control separators, plus the common Unicode space codepoints. -/
def isPySpace (c : Nat) : Bool :=
  c = 32 ∨ (9 ≤ c ∧ c ≤ 13) ∨ (28 ≤ c ∧ c ≤ 31) ∨ c = 133 ∨ c = 160 ∨
  c = 5760 ∨ (8192 ≤ c ∧ c ≤ 8202) ∨ c = 8232 ∨ c = 8233 ∨ c = 8239 ∨
  c = 8287 ∨ c = 12288

/-- Python `str.lstrip()`. -/
def pyLstrip (s : PyStr) : PyStr := s.dropWhile isPySpace

/-- Python `str.rstrip()`. -/
def pyRstrip (s : PyStr) : PyStr := (s.reverse.dropWhile isPySpace).reverse

/-- Python `str.strip()`: leading and trailing whitespace removed. -/
def pyStrip (s : PyStr) : PyStr := pyRstrip (pyLstrip s)

/-- Python `str.ljust(n)`: pad on the right with spaces (codepoint 32) up
to length `n`; longer strings are returned unchanged. -/
def pyLjust (s : PyStr) (n : Nat) : PyStr := s ++ List.replicate (n - s.length) 32

/-- Python `str.startswith(p)`. -/
def pyStartswith (p s : PyStr) : Bool := s.take p.length = p

/-- UTF-8 encoding of a single codepoint, as in Python `str.encode("utf-8")`. -/
def utf8Char (c : Nat) : List Nat :=
  if c < 128 then [c]
  else if c < 2048 then [192 + c / 64, 128 + c % 64]
  else if c < 65536 then [224 + c / 4096, 128 + (c / 64) % 64, 128 + c % 64]
  else [240 + c / 262144, 128 + (c / 4096) % 64, 128 + (c / 64) % 64, 128 + c % 64]

/-- UTF-8 encoding of a whole string. -/
def utf8Encode (s : PyStr) : List Nat := s.flatMap utf8Char

/-! ### MD5 (RFC 1321) over `Nat` arithmetic modulo 2^32 -/

/-- 32-bit rotate left. -/
def rotl32 (x n : Nat) : Nat := ((x <<< n) ||| (x >>> (32 - n))) % 4294967296

/-- The 64 MD5 sine-derived round constants. -/
def md5K : List Nat :=
  [3614090360, 3905402710, 606105819, 3250441966, 4118548399, 1200080426,
   2821735955, 4249261313, 1770035416, 2336552879, 4294925233, 2304563134,
   1804603682, 4254626195, 2792965006, 1236535329, 4129170786, 3225465664,
   643717713, 3921069994, 3593408605, 38016083, 3634488961, 3889429448,
   568446438, 3275163606, 4107603335, 1163531501, 2850285829, 4243563512,
   1735328473, 2368359562, 4294588738, 2272392833, 1839030562, 4259657740,
   2763975236, 1272893353, 4139469664, 3200236656, 681279174, 3936430074,
   3572445317, 76029189, 3654602809, 3873151461, 530742520, 3299628645,
   4096336452, 1126891415, 2878612391, 4237533241, 1700485571, 2399980690,
   4293915773, 2240044497, 1873313359, 4264355552, 2734768916, 1309151649,
   4149444226, 3174756917, 718787259, 3951481745]

/-- The 64 MD5 per-round left-rotation amounts. -/
def md5S : List Nat :=
  [7, 12, 17, 22, 7, 12, 17, 22, 7, 12, 17, 22, 7, 12, 17, 22,
   5, 9, 14, 20, 5, 9, 14, 20, 5, 9, 14, 20, 5, 9, 14, 20,
   4, 11, 16, 23, 4, 11, 16, 23, 4, 11, 16, 23, 4, 11, 16, 23,
   6, 10, 15, 21, 6, 10, 15, 21, 6, 10, 15, 21, 6, 10, 15, 21]

/-- One MD5 round: `i` is the round index (0-63), `M` the sixteen message
words of the current block, `(a, b, c, d)` the running state. -/
def md5Round (M : List Nat) (st : Nat × Nat × Nat × Nat) (i : Nat) :
    Nat × Nat × Nat × Nat :=
  let (a, b, c, d) := st
  let f :=
    if i < 16 then (b &&& c) ||| ((4294967295 ^^^ b) &&& d)
    else if i < 32 then (d &&& b) ||| ((4294967295 ^^^ d) &&& c)
    else if i < 48 then b ^^^ c ^^^ d
    else c ^^^ (b ||| (4294967295 ^^^ d))
  let g :=
    if i < 16 then i
    else if i < 32 then (5 * i + 1) % 16
    else if i < 48 then (3 * i + 5) % 16
    else (7 * i) % 16
  let sum := (a + f + md5K.getD i 0 + M.getD g 0) % 4294967296
  (d, (b + rotl32 sum (md5S.getD i 0)) % 4294967296, b, c)

/-- Little-endian byte decomposition: `leBytes k v` is the `k` low-order
bytes of `v`. -/
def leBytes : Nat → Nat → List Nat
  | 0, _ => []
  | k + 1, v => v % 256 :: leBytes k (v / 256)

/-- Assemble one 32-bit little-endian word from four bytes of a block. -/
def md5Word (block : List Nat) (j : Nat) : Nat :=
  block.getD (4 * j) 0 + 256 * block.getD (4 * j + 1) 0 +
    65536 * block.getD (4 * j + 2) 0 + 16777216 * block.getD (4 * j + 3) 0

/-- Process one 64-byte block against the running state. -/
def md5Block (st : Nat × Nat × Nat × Nat) (block : List Nat) :
    Nat × Nat × Nat × Nat :=
  let M := (List.range 16).map (md5Word block)
  let (a, b, c, d) := (List.range 64).foldl (fun s i => md5Round M s i) st
  let (a0, b0, c0, d0) := st
  ((a0 + a) % 4294967296, (b0 + b) % 4294967296,
   (c0 + c) % 4294967296, (d0 + d) % 4294967296)

/-- Split a byte list into 64-byte chunks (fuelled structural recursion). -/
def chunks64 : Nat → List Nat → List (List Nat)
  | 0, _ => []
  | _, [] => []
  | fuel + 1, l => l.take 64 :: chunks64 fuel (l.drop 64)

/-- MD5 padding: append `0x80`, zero bytes to 56 mod 64, then the
original bit length as eight little-endian bytes. -/
def md5Pad (msg : List Nat) : List Nat :=
  msg ++ 128 :: List.replicate ((119 - msg.length % 64) % 64) 0 ++
    leBytes 8 (msg.length * 8)

/-- The MD5 digest of a byte string, as sixteen bytes. -/
def md5 (msg : List Nat) : List Nat :=
  let padded := md5Pad msg
  let st :=
    (chunks64 (padded.length + 1) padded).foldl md5Block
      (1732584193, 4023233417, 2562383102, 271733878)
  leBytes 4 st.1 ++ leBytes 4 st.2.1 ++ leBytes 4 st.2.2.1 ++ leBytes 4 st.2.2.2

/-- One lowercase hex digit (0-15 to `0`-`9`, `a`-`f`). -/
def hexCharLower (v : Nat) : Nat := if v < 10 then 48 + v else 87 + v

/-- Python `hashlib.md5(...).hexdigest()`: the digest as 32 lowercase hex
characters. -/
def md5Hexdigest (msg : List Nat) : PyStr :=
  (md5 msg).flatMap (fun b => [hexCharLower (b / 16), hexCharLower (b % 16)])

/-! ### The license core (`license_generator.py`) -/

/-- The shared secret `SECRET` of `license_generator.py`. -/
def SECRET : PyStr := pyStr "AuRa_Eq_2026_LiCeNsE_kEy_SeCrEt_V2"

/-- `compute_signature(customer_id, machine_id)`: MD5 of
`SECRET + "-" + customer_id + "-" + machine_id` (UTF-8), first 8 hex
characters of the hexdigest, uppercased.  Codepoint 45 is `-`. -/
def compute_signature (customer_id machine_id : PyStr) : PyStr :=
  let input_str := SECRET ++ 45 :: customer_id ++ 45 :: machine_id
  ((md5Hexdigest (utf8Encode input_str)).take 8).map upperChar

/-- Decimal digits of a natural number (fuelled structural recursion),
modelling Python f-string interpolation of an integer. -/
def natToDecAux : Nat → Nat → PyStr
  | 0, _ => []
  | fuel + 1, n => if n < 10 then [48 + n] else natToDecAux fuel (n / 10) ++ [48 + n % 10]

/-- Decimal representation of a natural number as codepoints. -/
def natToDec (n : Nat) : PyStr := natToDecAux (n + 1) n

/-- The error raised by `generate_key`: either the explicit `ValueError`
for a short machine id, or the `assert len(key) == 23` failure. -/
inductive GenError where
  | invalidInput (msg : PyStr)
  | assertionFailure (msg : PyStr)
  deriving DecidableEq, Repr

/-- `generate_key(customer_id, machine_id)` of `license_generator.py`:

    cid = customer_id.upper().ljust(4)[:4]
    mid = machine_id.upper()
    if len(mid) < 4: raise ValueError(...)
    machine_pfx = mid[:4]
    signature = compute_signature(cid, mid)
    key = f"AURA-{cid}-{machine_pfx}-{signature}"
    assert len(key) == 23
    return key
-/
def generate_key (customer_id machine_id : PyStr) : Except GenError PyStr :=
  let cid := (pyLjust (pyUpper customer_id) 4).take 4
  let mid := pyUpper machine_id
  if mid.length < 4 then
    .error (.invalidInput
      (pyStr "Machine-ID muss mindestens 4 Zeichen haben (erhalten: '" ++ mid ++ pyStr "')"))
  else
    let machinePfx := mid.take 4
    let signature := compute_signature cid mid
    let key := pyStr "AURA-" ++ cid ++ 45 :: machinePfx ++ 45 :: signature
    if key.length = 23 then .ok key
    else .error (.assertionFailure
      (pyStr "Key-Laenge falsch: " ++ natToDec key.length ++ pyStr " statt 23"))

/-- `validate_key(key, machine_id)` of `license_generator.py`, with the
fallible character indexings `key[4]`, `key[9]`, `key[14]` modelled in
`Option` (`none` would be an uncaught `IndexError`); Python's short-circuit
`or` means `key[9]` is only indexed when `key[4]` equals `-`, and `key[14]`
only when `key[9]` does too.  Slices are total in Python and modelled with
`drop`/`take`. -/
def validate_key (key machine_id : PyStr) : Option (Bool × PyStr) :=
  let k := pyStrip (pyUpper key)
  let m := pyStrip (pyUpper machine_id)
  if ¬ pyStartswith (pyStr "AURA-") k then
    some (false, pyStr "Key muss mit 'AURA-' beginnen")
  else if k.length ≠ 23 then
    some (false, pyStr "Ungueltige Key-Laenge (erwartet 23, erhalten " ++
      natToDec k.length ++ pyStr ")")
  else
    (k.get? 4).bind fun c4 =>
    if c4 ≠ 45 then some (false, pyStr "Ungueltige Trennzeichen-Positionen")
    else (k.get? 9).bind fun c9 =>
    if c9 ≠ 45 then some (false, pyStr "Ungueltige Trennzeichen-Positionen")
    else (k.get? 14).bind fun c14 =>
    if c14 ≠ 45 then some (false, pyStr "Ungueltige Trennzeichen-Positionen")
    else
      let customer_id := (k.drop 5).take 4
      let machinePfx := (k.drop 10).take 4
      let signature := (k.drop 15).take 8
      if machinePfx ≠ m.take 4 then
        some (false, pyStr "Machine-ID stimmt nicht (" ++ machinePfx ++
          pyStr " != " ++ m.take 4 ++ pyStr ")")
      else
        let expected := compute_signature customer_id m
        if signature ≠ expected then
          some (false, pyStr "Signatur ungueltig (erwartet " ++ expected ++
            pyStr ", erhalten " ++ signature ++ pyStr ")")
        else
          some (true, pyStr "Key gueltig fuer Machine " ++ m ++
            pyStr " (Kunde: " ++ customer_id ++ pyStr ")")

/-! ### Machine-id derivation (`verify_keys.py`) -/

/-- Is the codepoint a hexadecimal digit (`[0-9A-Fa-f]`)? -/
def isHexDigit (c : Nat) : Bool :=
  (48 ≤ c ∧ c ≤ 57) ∨ (65 ≤ c ∧ c ≤ 70) ∨ (97 ≤ c ∧ c ≤ 102)

/-- Does the pattern `([0-9A-Fa-f]{4})-([0-9A-Fa-f]{4})` match at the head
of `s`?  If so, return the two 4-character groups. -/
def serialMatchHere (s : PyStr) : Option (PyStr × PyStr) :=
  let g1 := s.take 4
  let g2 := (s.drop 5).take 4
  if g1.length = 4 ∧ g1.all isHexDigit ∧ s.get? 4 = some 45 ∧
      g2.length = 4 ∧ g2.all isHexDigit then
    some (g1, g2)
  else none

/-- Leftmost match of `([0-9A-Fa-f]{4})-([0-9A-Fa-f]{4})`, as Python
`re.search` finds it: try every start position from the left. -/
def findSerial : PyStr → Option (PyStr × PyStr)
  | [] => none
  | c :: rest =>
    match serialMatchHere (c :: rest) with
    | some g => some g
    | none => findSerial rest

/-- Value of one hexadecimal digit codepoint. -/
def hexDigitVal (c : Nat) : Nat :=
  if 48 ≤ c ∧ c ≤ 57 then c - 48
  else if 65 ≤ c ∧ c ≤ 70 then c - 55
  else if 97 ≤ c ∧ c ≤ 102 then c - 87
  else 0

/-- Python `int(s, 16)` on a string of hexadecimal digits. -/
def hexToNat (s : PyStr) : Nat := s.foldl (fun acc c => 16 * acc + hexDigitVal c) 0

/-- The volume serial of `verify_keys.py`:
`int(match.group(1) + match.group(2), 16) if match else 0`. -/
def serialNum (volOut : PyStr) : Nat :=
  match findSerial volOut with
  | some (g1, g2) => hexToNat (g1 ++ g2)
  | none => 0

/-- The machine-id derivation of `verify_keys.py`, as a function of the
ambient inputs it reads (the computer name and the `vol C:` output):

    fingerprint = f"{computer_name}|{serial_num}|AuRa_HW_v2"
    machine_id = hashlib.md5(fingerprint.encode("utf-8")).hexdigest()[:8].upper()

Codepoint 124 is `|`. -/
def machine_id (computerName volOut : PyStr) : PyStr :=
  let fingerprint :=
    computerName ++ 124 :: natToDec (serialNum volOut) ++ 124 :: pyStr "AuRa_HW_v2"
  ((md5Hexdigest (utf8Encode fingerprint)).take 8).map upperChar

/-! ### Derived definitions and spec-side definitions -/

/-- The normalized customer id of `generate_key`:
`customer_id.upper().ljust(4)[:4]`. -/
def normCid (c : PyStr) : PyStr := (pyLjust (pyUpper c) 4).take 4

/-- The key built by `generate_key` when the machine id is long enough. -/
def keyOf (c m : PyStr) : PyStr :=
  pyStr "AURA-" ++ normCid c ++ 45 :: (pyUpper m).take 4 ++
    45 :: compute_signature (normCid c) (pyUpper m)

/-- The signature algorithm as the spec states it: "build the string
`Secret + "-" + customer_id + "-" + machine_id`; compute the MD5 digest
over its UTF-8 byte encoding; take the first 8 hex characters of the
uppercase hex digest". -/
def compute_signature_spec (customer_id machine_id : PyStr) : PyStr :=
  ((md5Hexdigest (utf8Encode
    (SECRET ++ pyStr "-" ++ customer_id ++ pyStr "-" ++ machine_id))).map
      upperChar).take 8

/-- The validation sequence as the claim states it: uppercase and trim both
inputs, then check (1) the `AURA-` leader, (2) length exactly 23,
(3) separators at indices 4, 9, 14, (4) embedded machine prefix (10-13)
against the first 4 characters of the supplied machine id, (5) embedded
signature (15-22) against the recomputed signature over the embedded
customer id (5-8) and the supplied machine id; short-circuiting with a
distinct message at the first failure, `true` when all pass. -/
def validate_key_spec (key machine_id : PyStr) : Bool × PyStr :=
  let k := pyStrip (pyUpper key)
  let m := pyStrip (pyUpper machine_id)
  if ¬ pyStartswith (pyStr "AURA-") k then
    (false, pyStr "Key muss mit 'AURA-' beginnen")
  else if k.length ≠ 23 then
    (false, pyStr "Ungueltige Key-Laenge (erwartet 23, erhalten " ++
      natToDec k.length ++ pyStr ")")
  else if ¬ (k.getD 4 0 = 45 ∧ k.getD 9 0 = 45 ∧ k.getD 14 0 = 45) then
    (false, pyStr "Ungueltige Trennzeichen-Positionen")
  else if (k.drop 10).take 4 ≠ m.take 4 then
    (false, pyStr "Machine-ID stimmt nicht (" ++ (k.drop 10).take 4 ++
      pyStr " != " ++ m.take 4 ++ pyStr ")")
  else if (k.drop 15).take 8 ≠ compute_signature ((k.drop 5).take 4) m then
    (false, pyStr "Signatur ungueltig (erwartet " ++
      compute_signature ((k.drop 5).take 4) m ++ pyStr ", erhalten " ++
      (k.drop 15).take 8 ++ pyStr ")")
  else
    (true, pyStr "Key gueltig fuer Machine " ++ m ++ pyStr " (Kunde: " ++
      (k.drop 5).take 4 ++ pyStr ")")

/-! ### Basic lemmas about the string model -/

theorem upperChar_idem (c : Nat) : upperChar (upperChar c) = upperChar c := by
  unfold upperChar
  by_cases h : 97 ≤ c ∧ c ≤ 122
  · rw [if_pos h, if_neg (by omega)]
  · rw [if_neg h, if_neg h]

theorem map_eq_self {f : Nat → Nat} {l : List Nat} (h : ∀ x ∈ l, f x = x) :
    l.map f = l := by
  induction l with
  | nil => rfl
  | cons a t ih =>
    simp only [List.map_cons, h a (List.mem_cons_self a t), List.cons.injEq, true_and]
    exact ih fun x hx => h x (List.mem_cons_of_mem a hx)

theorem isPySpace_upperChar (c : Nat) : isPySpace (upperChar c) = isPySpace c := by
  unfold upperChar isPySpace
  split <;> rename_i h
  · simp only [decide_eq_decide]; omega
  · rfl

theorem length_pyUpper (s : PyStr) : (pyUpper s).length = s.length := by
  simp [pyUpper]

theorem pyUpper_idem (s : PyStr) : pyUpper (pyUpper s) = pyUpper s := by
  simp only [pyUpper, List.map_map]
  exact List.map_congr_left fun c _ => upperChar_idem c

theorem length_leBytes (k v : Nat) : (leBytes k v).length = k := by
  induction k generalizing v with
  | zero => rfl
  | succ k ih => simp [leBytes, ih]

theorem mem_leBytes_lt (k v : Nat) : ∀ b ∈ leBytes k v, b < 256 := by
  induction k generalizing v with
  | zero => intro b hb; simp [leBytes] at hb
  | succ k ih =>
    intro b hb
    simp only [leBytes, List.mem_cons] at hb
    rcases hb with h | h
    · omega
    · exact ih _ b h

theorem length_md5 (msg : List Nat) : (md5 msg).length = 16 := by
  simp [md5, length_leBytes]

theorem mem_md5_lt (msg : List Nat) : ∀ b ∈ md5 msg, b < 256 := by
  intro b hb
  simp only [md5, List.mem_append, or_assoc] at hb
  rcases hb with h | h | h | h <;> exact mem_leBytes_lt _ _ b h

theorem length_hexPairs (l : List Nat) :
    (l.flatMap fun b => [hexCharLower (b / 16), hexCharLower (b % 16)]).length =
      2 * l.length := by
  induction l with
  | nil => rfl
  | cons a t ih => simp [ih]; omega

theorem length_md5Hexdigest (msg : List Nat) : (md5Hexdigest msg).length = 32 := by
  rw [md5Hexdigest, length_hexPairs, length_md5]

theorem hexCharLower_range (v : Nat) (h : v < 16) :
    (48 ≤ hexCharLower v ∧ hexCharLower v ≤ 57) ∨
      (97 ≤ hexCharLower v ∧ hexCharLower v ≤ 102) := by
  unfold hexCharLower
  split <;> omega

theorem mem_md5Hexdigest (msg : List Nat) :
    ∀ c ∈ md5Hexdigest msg, (48 ≤ c ∧ c ≤ 57) ∨ (97 ≤ c ∧ c ≤ 102) := by
  intro c hc
  simp only [md5Hexdigest, List.mem_flatMap] at hc
  obtain ⟨b, hb, hcb⟩ := hc
  have hblt : b < 256 := mem_md5_lt msg b hb
  simp only [List.mem_cons, List.not_mem_nil, or_false] at hcb
  rcases hcb with rfl | rfl
  · exact hexCharLower_range _ (by omega)
  · exact hexCharLower_range _ (by omega)

theorem length_compute_signature (c m : PyStr) :
    (compute_signature c m).length = 8 := by
  simp only [compute_signature, List.length_map, List.length_take,
    length_md5Hexdigest]
  omega

theorem mem_compute_signature (c m : PyStr) :
    ∀ x ∈ compute_signature c m, (48 ≤ x ∧ x ≤ 57) ∨ (65 ≤ x ∧ x ≤ 70) := by
  intro x hx
  simp only [compute_signature, List.mem_map] at hx
  obtain ⟨y, hy, rfl⟩ := hx
  have hy' := mem_md5Hexdigest _ y (List.mem_of_mem_take hy)
  unfold upperChar
  split <;> omega

theorem upperChar_fix {x : Nat} (h : (48 ≤ x ∧ x ≤ 57) ∨ (65 ≤ x ∧ x ≤ 70)) :
    upperChar x = x := by
  unfold upperChar
  rw [if_neg]; omega

theorem isPySpace_hex {x : Nat} (h : (48 ≤ x ∧ x ≤ 57) ∨ (65 ≤ x ∧ x ≤ 70)) :
    isPySpace x = false := by
  simp only [isPySpace, decide_eq_false_iff_not]
  omega

theorem pyUpper_compute_signature (c m : PyStr) :
    pyUpper (compute_signature c m) = compute_signature c m :=
  map_eq_self fun x hx => upperChar_fix (mem_compute_signature c m x hx)

/-! ### Strip lemmas -/

theorem of_map_eq_self {f : Nat → Nat} {l : List Nat} (h : l.map f = l) :
    ∀ x ∈ l, f x = x := by
  induction l with
  | nil => intro x hx; simp at hx
  | cons a t ih =>
    simp only [List.map_cons, List.cons.injEq] at h
    intro x hx
    rcases List.mem_cons.mp hx with rfl | hx
    · exact h.1
    · exact ih h.2 x hx

theorem head_dropWhile {p : Nat → Bool} {l : List Nat} {x : Nat}
    (h : (l.dropWhile p).head? = some x) : p x = false := by
  induction l with
  | nil => simp [List.dropWhile] at h
  | cons a t ih =>
    rw [List.dropWhile] at h
    cases hp : p a with
    | true => simp only [hp] at h; exact ih h
    | false =>
      simp only [hp, List.head?_cons, Option.some.injEq] at h
      subst h
      exact hp

theorem pyStrip_eq_self {l : List Nat}
    (h1 : ∀ x, l.head? = some x → isPySpace x = false)
    (h2 : ∀ x, l.reverse.head? = some x → isPySpace x = false) :
    pyStrip l = l := by
  cases l with
  | nil => rfl
  | cons a t =>
    have ha := h1 a rfl
    have hl : pyLstrip (a :: t) = a :: t := by
      rw [pyLstrip, List.dropWhile, ha]
    rw [pyStrip, hl, pyRstrip]
    rcases hr : (a :: t).reverse with _ | ⟨b, r⟩
    · exact absurd (congrArg List.length hr) (by simp)
    · have hb := h2 b (by rw [hr]; rfl)
      rw [List.dropWhile]
      simp only [hb]
      rw [← hr, List.reverse_reverse]

theorem pyRstrip_isPrefix (l : PyStr) : pyRstrip l <+: l := by
  rw [pyRstrip, ← List.reverse_suffix]
  simp only [List.reverse_reverse]
  exact List.dropWhile_suffix _

theorem head_pyStrip {l : PyStr} {x : Nat} (h : (pyStrip l).head? = some x) :
    isPySpace x = false := by
  obtain ⟨t, ht⟩ := pyRstrip_isPrefix (pyLstrip l)
  rw [pyStrip] at h
  apply head_dropWhile (p := isPySpace) (l := l)
  rw [← pyLstrip, ← ht]
  rcases hs : pyRstrip (pyLstrip l) with _ | ⟨b, r⟩
  · rw [hs] at h; simp at h
  · rw [hs] at h
    simp only [List.head?_cons, Option.some.injEq] at h
    subst h
    rfl

/-! ### Structure of generated keys -/

theorem pyStr_AURA : pyStr "AURA-" = [65, 85, 82, 65, 45] := by decide

theorem length_normCid (c : PyStr) : (normCid c).length = 4 := by
  simp only [normCid, pyLjust, List.length_take, List.length_append,
    List.length_replicate]
  omega

theorem pyUpper_normCid (c : PyStr) : pyUpper (normCid c) = normCid c := by
  refine map_eq_self fun x hx => ?_
  simp only [normCid, pyLjust] at hx
  rcases List.mem_append.mp (List.mem_of_mem_take hx) with hx | hx
  · obtain ⟨y, _, rfl⟩ := List.mem_map.mp hx
    exact upperChar_idem y
  · rw [List.eq_of_mem_replicate hx]; decide

theorem length_take_four {l : List Nat} (h : 4 ≤ l.length) :
    (l.take 4).length = 4 := by
  simp only [List.length_take]
  omega

theorem list_len4 {l : List Nat} (h : l.length = 4) :
    ∃ a b c d, l = [a, b, c, d] := by
  match l, h with
  | [a, b, c, d], _ => exact ⟨a, b, c, d, rfl⟩

theorem list_len8 {l : List Nat} (h : l.length = 8) :
    ∃ a b c d e f g h', l = [a, b, c, d, e, f, g, h'] := by
  match l, h with
  | [a, b, c, d, e, f, g, h'], _ => exact ⟨a, b, c, d, e, f, g, h', rfl⟩

theorem length_keyOf (c m : PyStr) (h : 4 ≤ (pyUpper m).length) :
    (keyOf c m).length = 23 := by
  simp only [keyOf, List.length_append, List.length_cons, pyStr_AURA,
    length_normCid, length_take_four h, length_compute_signature]
  rfl

theorem generate_key_eq (c m : PyStr) (h : 4 ≤ (pyUpper m).length) :
    generate_key c m = .ok (keyOf c m) := by
  rw [generate_key, if_neg (by omega)]
  show (if (keyOf c m).length = 23 then Except.ok (keyOf c m)
    else Except.error (GenError.assertionFailure
      (pyStr "Key-Laenge falsch: " ++ natToDec (keyOf c m).length ++
        pyStr " statt 23"))) = Except.ok (keyOf c m)
  rw [if_pos (length_keyOf c m h)]

theorem upperChar_mem_keyOf (c m : PyStr) :
    ∀ x ∈ keyOf c m, upperChar x = x := by
  intro x hx
  simp only [keyOf, List.mem_append, List.mem_cons] at hx
  rcases hx with ((hx | hx) | rfl | hx) | rfl | hx
  · rw [pyStr_AURA] at hx; fin_cases hx <;> rfl
  · exact of_map_eq_self (pyUpper_normCid c) x hx
  · rfl
  · obtain ⟨y, _, rfl⟩ := List.mem_map.mp (List.mem_of_mem_take hx)
    exact upperChar_idem y
  · rfl
  · exact upperChar_fix (mem_compute_signature _ _ x hx)

theorem pyUpper_keyOf (c m : PyStr) : pyUpper (keyOf c m) = keyOf c m :=
  map_eq_self (upperChar_mem_keyOf c m)

theorem keyOf_explicit (c m : PyStr) (h : 4 ≤ (pyUpper m).length) :
    ∃ c1 c2 c3 c4 p1 p2 p3 p4 s1 s2 s3 s4 s5 s6 s7 s8,
      keyOf c m = [65, 85, 82, 65, 45, c1, c2, c3, c4, 45, p1, p2, p3, p4, 45,
        s1, s2, s3, s4, s5, s6, s7, s8] ∧
      normCid c = [c1, c2, c3, c4] ∧
      (pyUpper m).take 4 = [p1, p2, p3, p4] ∧
      compute_signature (normCid c) (pyUpper m) = [s1, s2, s3, s4, s5, s6, s7, s8] := by
  obtain ⟨c1, c2, c3, c4, hc⟩ := list_len4 (length_normCid c)
  obtain ⟨p1, p2, p3, p4, hp⟩ := list_len4 (length_take_four h)
  obtain ⟨s1, s2, s3, s4, s5, s6, s7, s8, hs⟩ :=
    list_len8 (length_compute_signature (normCid c) (pyUpper m))
  refine ⟨c1, c2, c3, c4, p1, p2, p3, p4, s1, s2, s3, s4, s5, s6, s7, s8,
    ?_, hc, hp, hs⟩
  rw [keyOf, pyStr_AURA, hs, hc, hp]
  rfl

theorem pyStrip_keyOf (c m : PyStr) (h : 4 ≤ (pyUpper m).length) :
    pyStrip (keyOf c m) = keyOf c m := by
  obtain ⟨c1, c2, c3, c4, p1, p2, p3, p4, s1, s2, s3, s4, s5, s6, s7, s8,
    hk, _, _, hs⟩ := keyOf_explicit c m h
  refine pyStrip_eq_self (fun x hx => ?_) (fun x hx => ?_)
  · rw [hk] at hx
    simp only [List.head?_cons, Option.some.injEq] at hx
    subst hx; rfl
  · rw [List.head?_reverse, hk] at hx
    simp only [List.getLast?_cons_cons, List.getLast?_singleton,
      Option.some.injEq] at hx
    subst hx
    have hmem : s8 ∈ compute_signature (normCid c) (pyUpper m) := by rw [hs]; simp
    exact isPySpace_hex (mem_compute_signature _ _ _ hmem)

theorem validate_keyOf (c m : PyStr) (h : 4 ≤ (pyUpper m).length)
    (hm : pyStrip (pyUpper m) = pyUpper m) :
    validate_key (keyOf c m) m =
      some (true, pyStr "Key gueltig fuer Machine " ++ pyUpper m ++
        pyStr " (Kunde: " ++ normCid c ++ pyStr ")") := by
  obtain ⟨c1, c2, c3, c4, p1, p2, p3, p4, s1, s2, s3, s4, s5, s6, s7, s8,
    hk, hc, hp, hs⟩ := keyOf_explicit c m h
  have hnorm : pyStrip (pyUpper (keyOf c m)) =
      [65, 85, 82, 65, 45, c1, c2, c3, c4, 45, p1, p2, p3, p4, 45,
        s1, s2, s3, s4, s5, s6, s7, s8] := by
    rw [pyUpper_keyOf, pyStrip_keyOf c m h, hk]
  simp only [validate_key, hnorm, hm, hp]
  rw [if_neg (by rw [pyStr_AURA]; simp [pyStartswith]), if_neg (by simp)]
  simp only [List.get?, Option.some_bind, List.drop, List.take]
  rw [if_neg (by simp), if_neg (by simp), if_neg (by simp),
    if_neg (by simp), if_neg (by rw [← hc, hs]; simp)]
  rw [← hc]

theorem get?_eq_some_getD {l : List Nat} {i : Nat} (h : i < l.length) :
    l.get? i = some (l.getD i 0) := by
  rcases h' : l.get? i with _ | v
  · rw [List.get?_eq_none] at h'; omega
  · rw [List.getD_eq_getElem?_getD, ← List.get?_eq_getElem?, h']; rfl

theorem validate_key_refines (key m : PyStr) :
    validate_key key m = some (validate_key_spec key m) := by
  simp only [validate_key, validate_key_spec]
  by_cases h1 : pyStartswith (pyStr "AURA-") (pyStrip (pyUpper key)) = true
  · rw [if_neg (not_not_intro h1), if_neg (not_not_intro h1)]
    by_cases h2 : (pyStrip (pyUpper key)).length = 23
    · rw [if_neg (not_not_intro h2), if_neg (not_not_intro h2),
        get?_eq_some_getD (i := 4) (by omega), Option.some_bind]
      by_cases h4 : (pyStrip (pyUpper key)).getD 4 0 = 45
      · rw [if_neg (not_not_intro h4),
          get?_eq_some_getD (i := 9) (by omega), Option.some_bind]
        by_cases h9 : (pyStrip (pyUpper key)).getD 9 0 = 45
        · rw [if_neg (not_not_intro h9),
            get?_eq_some_getD (i := 14) (by omega), Option.some_bind]
          by_cases h14 : (pyStrip (pyUpper key)).getD 14 0 = 45
          · rw [if_neg (not_not_intro h14),
              if_neg (not_not_intro (And.intro h4 (And.intro h9 h14)))]
            by_cases hmp : List.take 4 (List.drop 10 (pyStrip (pyUpper key))) =
                List.take 4 (pyStrip (pyUpper m))
            · rw [if_neg (not_not_intro hmp), if_neg (not_not_intro hmp)]
              by_cases hsg : List.take 8 (List.drop 15 (pyStrip (pyUpper key))) =
                  compute_signature (List.take 4 (List.drop 5 (pyStrip (pyUpper key))))
                    (pyStrip (pyUpper m))
              · rw [if_neg (not_not_intro hsg), if_neg (not_not_intro hsg)]
              · rw [if_pos hsg, if_pos hsg]
            · rw [if_pos hmp, if_pos hmp]
          · rw [if_pos h14, if_pos fun hh => h14 hh.2.2]
        · rw [if_pos h9, if_pos fun hh => h9 hh.2.1]
      · rw [if_pos h4, if_pos fun hh => h4 hh.1]
    · rw [if_pos h2, if_pos h2]
  · rw [if_pos h1, if_pos h1]

theorem pyStartswith_append (p r : PyStr) : pyStartswith p (p ++ r) = true := by
  simp [pyStartswith, List.take_left]

theorem validate_keyOf_mismatch (c m : PyStr) (h : 4 ≤ (pyUpper m).length)
    (hne : (pyUpper m).take 4 ≠ (pyStrip (pyUpper m)).take 4) :
    validate_key (keyOf c m) m =
      some (false, pyStr "Machine-ID stimmt nicht (" ++ (pyUpper m).take 4 ++
        pyStr " != " ++ (pyStrip (pyUpper m)).take 4 ++ pyStr ")") := by
  obtain ⟨c1, c2, c3, c4, p1, p2, p3, p4, s1, s2, s3, s4, s5, s6, s7, s8,
    hk, hc, hp, hs⟩ := keyOf_explicit c m h
  rw [hp] at hne
  have hnorm : pyStrip (pyUpper (keyOf c m)) =
      [65, 85, 82, 65, 45, c1, c2, c3, c4, 45, p1, p2, p3, p4, 45,
        s1, s2, s3, s4, s5, s6, s7, s8] := by
    rw [pyUpper_keyOf, pyStrip_keyOf c m h, hk]
  simp only [validate_key, hnorm]
  rw [if_neg (by rw [pyStr_AURA]; simp [pyStartswith]), if_neg (by simp)]
  simp only [List.get?, Option.some_bind, List.drop, List.take]
  rw [if_neg (by simp), if_neg (by simp), if_neg (by simp), if_pos hne, hp]

theorem head_pyUpper {m : PyStr} {w : Nat} (h : m.head? = some w) :
    (pyUpper m).head? = some (upperChar w) := by
  cases m with
  | nil => simp at h
  | cons a t =>
    simp only [List.head?_cons, Option.some.injEq] at h
    subst h
    rfl

theorem take_four_ne_of_space_head {s t : PyStr} (hs4 : 4 ≤ s.length)
    (hw : ∀ x, s.head? = some x → isPySpace x = true)
    (ht : ∀ x, t.head? = some x → isPySpace x = false) :
    s.take 4 ≠ t.take 4 := by
  intro heq
  cases s with
  | nil => simp at hs4
  | cons a s' =>
    cases t with
    | nil =>
      have := congrArg List.length heq
      simp only [List.length_take, List.length_cons, List.length_nil] at this
      omega
    | cons b t' =>
      simp only [List.take_succ_cons, List.cons.injEq] at heq
      have h1 := hw a rfl
      have h2 := ht b rfl
      rw [heq.1] at h1
      rw [h1] at h2
      simp at h2

/-! ### A characterization of successful validation -/

theorem validate_spec_fst_iff (key m : PyStr) :
    (validate_key_spec key m).1 = true ↔
      (pyStartswith (pyStr "AURA-") (pyStrip (pyUpper key)) = true ∧
       (pyStrip (pyUpper key)).length = 23 ∧
       (pyStrip (pyUpper key)).getD 4 0 = 45 ∧
       (pyStrip (pyUpper key)).getD 9 0 = 45 ∧
       (pyStrip (pyUpper key)).getD 14 0 = 45 ∧
       List.take 4 (List.drop 10 (pyStrip (pyUpper key))) =
         List.take 4 (pyStrip (pyUpper m)) ∧
       List.take 8 (List.drop 15 (pyStrip (pyUpper key))) =
         compute_signature (List.take 4 (List.drop 5 (pyStrip (pyUpper key))))
           (pyStrip (pyUpper m))) := by
  simp only [validate_key_spec]
  by_cases h1 : pyStartswith (pyStr "AURA-") (pyStrip (pyUpper key)) = true
  · rw [if_neg (not_not_intro h1)]
    by_cases h2 : (pyStrip (pyUpper key)).length = 23
    · rw [if_neg (not_not_intro h2)]
      by_cases h3 : (pyStrip (pyUpper key)).getD 4 0 = 45 ∧
          (pyStrip (pyUpper key)).getD 9 0 = 45 ∧
          (pyStrip (pyUpper key)).getD 14 0 = 45
      · rw [if_neg (not_not_intro h3)]
        by_cases h4 : List.take 4 (List.drop 10 (pyStrip (pyUpper key))) =
            List.take 4 (pyStrip (pyUpper m))
        · rw [if_neg (not_not_intro h4)]
          by_cases h5 : List.take 8 (List.drop 15 (pyStrip (pyUpper key))) =
              compute_signature
                (List.take 4 (List.drop 5 (pyStrip (pyUpper key))))
                (pyStrip (pyUpper m))
          · rw [if_neg (not_not_intro h5)]
            exact iff_of_true rfl
              ⟨h1, h2, h3.1, h3.2.1, h3.2.2, h4, h5⟩
          · rw [if_pos h5]
            exact iff_of_false (by simp) fun hh => h5 hh.2.2.2.2.2.2
        · rw [if_pos h4]
          exact iff_of_false (by simp) fun hh => h4 hh.2.2.2.2.2.1
      · rw [if_pos h3]
        exact iff_of_false (by simp) fun hh =>
          h3 ⟨hh.2.2.1, hh.2.2.2.1, hh.2.2.2.2.1⟩
    · rw [if_pos h2]
      exact iff_of_false (by simp) fun hh => h2 hh.2.1
  · rw [if_pos h1]
    exact iff_of_false (by simp) fun hh => h1 hh.1

theorem validate_fst_true_iff (key m : PyStr) :
    (validate_key key m).map Prod.fst = some true ↔
      (pyStartswith (pyStr "AURA-") (pyStrip (pyUpper key)) = true ∧
       (pyStrip (pyUpper key)).length = 23 ∧
       (pyStrip (pyUpper key)).getD 4 0 = 45 ∧
       (pyStrip (pyUpper key)).getD 9 0 = 45 ∧
       (pyStrip (pyUpper key)).getD 14 0 = 45 ∧
       List.take 4 (List.drop 10 (pyStrip (pyUpper key))) =
         List.take 4 (pyStrip (pyUpper m)) ∧
       List.take 8 (List.drop 15 (pyStrip (pyUpper key))) =
         compute_signature (List.take 4 (List.drop 5 (pyStrip (pyUpper key))))
           (pyStrip (pyUpper m))) := by
  rw [validate_key_refines, Option.map_some', Option.some.injEq]
  exact validate_spec_fst_iff key m

theorem validate_fst_false_iff (key m : PyStr) :
    (validate_key key m).map Prod.fst = some false ↔
      ¬ (pyStartswith (pyStr "AURA-") (pyStrip (pyUpper key)) = true ∧
       (pyStrip (pyUpper key)).length = 23 ∧
       (pyStrip (pyUpper key)).getD 4 0 = 45 ∧
       (pyStrip (pyUpper key)).getD 9 0 = 45 ∧
       (pyStrip (pyUpper key)).getD 14 0 = 45 ∧
       List.take 4 (List.drop 10 (pyStrip (pyUpper key))) =
         List.take 4 (pyStrip (pyUpper m)) ∧
       List.take 8 (List.drop 15 (pyStrip (pyUpper key))) =
         compute_signature (List.take 4 (List.drop 5 (pyStrip (pyUpper key))))
           (pyStrip (pyUpper m))) := by
  rw [← validate_spec_fst_iff key m, validate_key_refines, Option.map_some',
    Option.some.injEq]
  rcases Bool.eq_false_or_eq_true (validate_key_spec key m).1 with hb | hb <;>
    rw [hb] <;> simp

/-! ### Helpers for the single-character-mutation analysis -/

theorem pyStrip_eq_self' {l : List Nat}
    (h1 : ∀ x, l.head? = some x → isPySpace x = false)
    (h2 : ∀ x, l.getLast? = some x → isPySpace x = false) :
    pyStrip l = l :=
  pyStrip_eq_self h1 fun x hx => h2 x (by rwa [List.head?_reverse] at hx)

theorem eq_set_contra {l : List Nat} {j u : Nat} (hj : j < l.length)
    (h : l.set j u = l) : u = l.getD j 0 := by
  have hg := congrArg (fun t => t[j]?) h
  simp only at hg
  rw [List.getElem?_set_self hj] at hg
  rw [List.getD_eq_getElem?_getD, ← hg]
  rfl

theorem getD_take_lt {l : List Nat} {n i : Nat} (h : i < n) :
    (l.take n).getD i 0 = l.getD i 0 := by
  rw [List.getD_eq_getElem?_getD, List.getD_eq_getElem?_getD,
    List.getElem?_take, if_pos h]

theorem getD_drop_add (l : List Nat) (n i : Nat) :
    (l.drop n).getD i 0 = l.getD (n + i) 0 := by
  rw [List.getD_eq_getElem?_getD, List.getD_eq_getElem?_getD,
    List.getElem?_drop]

theorem getD_mem_of_lt {l : List Nat} {i : Nat} (h : i < l.length) :
    l.getD i 0 ∈ l := by
  rw [List.getD_eq_getElem?_getD, ← List.get?_eq_getElem?,
    List.get?_eq_get h]
  exact List.get_mem l i h

theorem startswith_AURA {l : PyStr}
    (h : pyStartswith (pyStr "AURA-") l = true) :
    List.take 5 l = [65, 85, 82, 65, 45] := by
  rw [pyStartswith, pyStr_AURA] at h
  simpa using of_decide_eq_true h

/-- C8 (amended): for every valid key `k` that is already normalized
(unchanged by uppercasing and trimming) and validates as `true` against
machine id `m`, changing any single character at a position outside the
embedded customer-id field (indices 5-8) to a character that is not a case
variant of the original makes `validate_key` return `false` for the same
`m`.  The unrestricted claim fails: un-normalized valid keys admit benign
whitespace mutations, and inside the customer-id field rejection would
require the absence of truncated-MD5 collisions. -/
theorem validate_key_single_edit (k m msg : PyStr) (p c' : Nat)
    (hku : pyUpper k = k) (hks : pyStrip k = k)
    (hv : validate_key k m = some (true, msg))
    (hp : p < k.length) (hout : p < 5 ∨ 8 < p)
    (hcase : upperChar c' ≠ upperChar (k.getD p 0)) :
    (validate_key (k.set p c') m).map Prod.fst = some false := by
  have htrue : (validate_key k m).map Prod.fst = some true := by rw [hv]; rfl
  rw [validate_fst_true_iff, hku, hks] at htrue
  obtain ⟨hA, hB, h4, h9, h14, hF, hG⟩ := htrue
  have hlen23 : k.length = 23 := hB
  rw [hB] at hp
  have hsome : k[p]? = some (k.getD p 0) := by
    rw [← List.get?_eq_getElem?]
    exact get?_eq_some_getD (by omega)
  have hfix : upperChar (k.getD p 0) = k.getD p 0 := by
    have hg := congrArg (fun t => t[p]?) hku
    simp only [pyUpper, List.getElem?_map, hsome, Option.map_some',
      Option.some.injEq] at hg
    exact hg
  rw [hfix] at hcase
  have hsetup : pyUpper (k.set p c') = k.set p (upperChar c') := by
    show List.map upperChar (k.set p c') = k.set p (upperChar c')
    rw [List.map_set]
    exact congrArg (fun t => t.set p (upperChar c')) hku
  have hA5 := startswith_AURA hA
  have hk0 : k[0]? = some 65 := by
    have h1 : (List.take 5 k)[0]? = k[0]? := by
      rw [List.getElem?_take, if_pos (by omega)]
    rw [hA5] at h1
    simpa using h1.symm
  have hk22v : k[22]? = some (k.getD 22 0) := by
    rw [← List.get?_eq_getElem?]
    exact get?_eq_some_getD (by omega)
  have hk22mem : k.getD 22 0 ∈
      compute_signature (List.take 4 (List.drop 5 k)) (pyStrip (pyUpper m)) := by
    rw [← hG]
    have h7 : (List.take 8 (List.drop 15 k)).getD 7 0 = k.getD 22 0 := by
      rw [getD_take_lt (by omega), getD_drop_add]
    rw [← h7]
    apply getD_mem_of_lt
    simp [List.length_take, List.length_drop, hlen23]
  have hk22sp : isPySpace (k.getD 22 0) = false :=
    isPySpace_hex (mem_compute_signature _ _ _ hk22mem)
  have hCfalse : pyStrip (k.set p (upperChar c')) = k.set p (upperChar c') →
      (validate_key (k.set p c') m).map Prod.fst = some false := by
    intro hstab
    rw [validate_fst_false_iff]
    intro hconj
    rw [hsetup, hstab] at hconj
    obtain ⟨hA2, hB2, h42, h92, h142, hF2, hG2⟩ := hconj
    rcases Nat.lt_or_ge p 5 with hr5 | hr5
    · have hA2' := startswith_AURA hA2
      rw [List.set_take, hA5] at hA2'
      have hu5 := eq_set_contra (l := [65, 85, 82, 65, 45]) (j := p)
        (by simpa using hr5) hA2'
      have hkp : k.getD p 0 = List.getD [65, 85, 82, 65, 45] p 0 := by
        rw [← getD_take_lt hr5, hA5]
      exact hcase (by rw [hu5, hkp])
    · have h8 : 8 < p := by
        rcases hout with h | h
        · omega
        · exact h
      by_cases hp9 : p = 9
      · subst hp9
        have hset9 : (k.set 9 (upperChar c')).getD 9 0 = upperChar c' := by
          rw [List.getD_eq_getElem?_getD, List.getElem?_set_self (by omega)]
          rfl
        rw [hset9] at h92
        rw [h9] at hcase
        exact hcase h92
      · by_cases hp14 : p = 14
        · subst hp14
          have hset14 : (k.set 14 (upperChar c')).getD 14 0 =
              upperChar c' := by
            rw [List.getD_eq_getElem?_getD, List.getElem?_set_self (by omega)]
            rfl
          rw [hset14] at h142
          rw [h14] at hcase
          exact hcase h142
        · rcases Nat.lt_or_ge p 15 with hr15 | hr15
          · rw [show List.drop 10 (k.set p (upperChar c')) =
                (List.drop 10 k).set (p - 10) (upperChar c') from by
                  rw [List.drop_set, if_neg (by omega)],
              List.set_take] at hF2
            have heq : (List.take 4 (List.drop 10 k)).set (p - 10)
                (upperChar c') = List.take 4 (List.drop 10 k) :=
              hF2.trans hF.symm
            have hulen : p - 10 < (List.take 4 (List.drop 10 k)).length := by
              simp only [List.length_take, List.length_drop, hlen23]
              omega
            have hu' := eq_set_contra hulen heq
            rw [getD_take_lt (by omega), getD_drop_add] at hu'
            have h10p : 10 + (p - 10) = p := by omega
            rw [h10p] at hu'
            exact hcase hu'
          · rw [show List.drop 15 (k.set p (upperChar c')) =
                (List.drop 15 k).set (p - 15) (upperChar c') from by
                  rw [List.drop_set, if_neg (by omega)],
              List.set_take,
              show List.drop 5 (k.set p (upperChar c')) =
                (List.drop 5 k).set (p - 5) (upperChar c') from by
                  rw [List.drop_set, if_neg (by omega)],
              List.take_set_of_lt _ _ (by omega)] at hG2
            have heq : (List.take 8 (List.drop 15 k)).set (p - 15)
                (upperChar c') = List.take 8 (List.drop 15 k) :=
              hG2.trans hG.symm
            have hulen : p - 15 < (List.take 8 (List.drop 15 k)).length := by
              simp only [List.length_take, List.length_drop, hlen23]
              omega
            have hu' := eq_set_contra hulen heq
            rw [getD_take_lt (by omega), getD_drop_add] at hu'
            have h15p : 15 + (p - 15) = p := by omega
            rw [h15p] at hu'
            exact hcase hu'
  by_cases hsp : isPySpace (upperChar c') = true
  · by_cases hp0 : p = 0
    · subst hp0
      rw [validate_fst_false_iff]
      intro hconj
      rw [hsetup] at hconj
      have hlen := hconj.2.1
      obtain ⟨a, t, rfl⟩ : ∃ a t, k = a :: t := by
        cases k with
        | nil => simp at hlen23
        | cons a t => exact ⟨a, t, rfl⟩
      rw [List.set_cons_zero] at hlen
      rw [pyStrip, pyLstrip, List.dropWhile] at hlen
      simp only [hsp] at hlen
      have l1 : (List.dropWhile isPySpace t).length ≤ t.length :=
        (List.dropWhile_suffix _).length_le
      have l2 : (pyRstrip (List.dropWhile isPySpace t)).length ≤
          (List.dropWhile isPySpace t).length :=
        (pyRstrip_isPrefix _).length_le
      have ht22 : t.length = 22 := by
        simp only [List.length_cons] at hlen23
        omega
      omega
    · by_cases hp22 : p = 22
      · subst hp22
        rw [validate_fst_false_iff]
        intro hconj
        rw [hsetup] at hconj
        have hlen := hconj.2.1
        have hXlast : (k.set 22 (upperChar c')).getLast? =
            some (upperChar c') := by
          rw [List.getLast?_eq_getElem?, List.length_set, hlen23]
          exact List.getElem?_set_self (by omega)
        rw [pyStrip] at hlen
        rcases hY : pyLstrip (k.set 22 (upperChar c')) with _ | ⟨b, w⟩
        · rw [hY] at hlen
          simp [pyRstrip] at hlen
        · have hsuf : pyLstrip (k.set 22 (upperChar c')) <:+
              k.set 22 (upperChar c') := List.dropWhile_suffix _
          obtain ⟨s, hsY⟩ := hsuf
          rw [← hsY, List.getLast?_append_of_ne_nil _ (by rw [hY]; simp)]
            at hXlast
          rw [hY] at hXlast hlen
          have hbrev : (b :: w).reverse.head? = some (upperChar c') := by
            rw [List.head?_reverse]
            exact hXlast
          rcases hbw : (b :: w).reverse with _ | ⟨y0, yw⟩
          · have hc0 := congrArg List.length hbw
            simp at hc0
          · rw [hbw, List.head?_cons, Option.some.injEq] at hbrev
            rw [pyRstrip, hbw, List.dropWhile] at hlen
            simp only [hbrev, hsp, List.length_reverse] at hlen
            have l1 : (List.dropWhile isPySpace yw).length ≤ yw.length :=
              (List.dropWhile_suffix _).length_le
            have hyw : (b :: w).length = yw.length + 1 := by
              have hc1 := congrArg List.length hbw
              simpa using hc1
            have h0 : (pyLstrip (k.set 22 (upperChar c'))).length ≤
                (k.set 22 (upperChar c')).length :=
              (List.dropWhile_suffix _).length_le
            rw [hY, List.length_set, hlen23] at h0
            omega
      · apply hCfalse
        refine pyStrip_eq_self' (fun x hx => ?_) (fun x hx => ?_)
        · rw [List.head?_eq_getElem?, List.getElem?_set, if_neg hp0] at hx
          rw [hk0, Option.some.injEq] at hx
          rw [← hx]
          decide
        · rw [List.getLast?_eq_getElem?, List.length_set, hlen23,
            List.getElem?_set, if_neg hp22] at hx
          rw [hk22v, Option.some.injEq] at hx
          rw [← hx]
          exact hk22sp
  · apply hCfalse
    refine pyStrip_eq_self' (fun x hx => ?_) (fun x hx => ?_)
    · rw [List.head?_eq_getElem?, List.getElem?_set] at hx
      by_cases hp0 : p = 0
      · rw [if_pos hp0, if_pos (by omega)] at hx
        rw [Option.some.injEq] at hx
        rw [← hx]
        exact Bool.eq_false_iff.mpr hsp
      · rw [if_neg hp0] at hx
        rw [hk0, Option.some.injEq] at hx
        rw [← hx]
        decide
    · rw [List.getLast?_eq_getElem?, List.length_set, hlen23,
        List.getElem?_set] at hx
      by_cases hp22 : p = 22
      · rw [if_pos hp22, if_pos (by omega)] at hx
        rw [Option.some.injEq] at hx
        rw [← hx]
        exact Bool.eq_false_iff.mpr hsp
      · rw [if_neg hp22] at hx
        rw [hk22v, Option.some.injEq] at hx
        rw [← hx]
        exact hk22sp

theorem generate_key_short (c m : PyStr) (h : (pyUpper m).length < 4) :
    generate_key c m = .error (.invalidInput
      (pyStr "Machine-ID muss mindestens 4 Zeichen haben (erhalten: '" ++
        pyUpper m ++ pyStr "')")) := by
  simp only [generate_key]
  rw [if_pos h]

/-! ### The claims -/

/-- C1 (amended): for every customer id string `c` and every machine id
string `m` whose uppercased form has length at least 4 and which carries no
leading or trailing whitespace (its uppercased form is unchanged by
trimming), `validate_key (generate_key c m) m` returns `true`.  The
unrestricted claim fails because `generate_key` does not trim `machine_id`
while `validate_key` does. -/
theorem generate_validate_roundtrip (c m : PyStr)
    (h4 : 4 ≤ (pyUpper m).length)
    (hm : pyStrip (pyUpper m) = pyUpper m) :
    ∃ key msgOK, generate_key c m = Except.ok key ∧
      validate_key key m = some (true, msgOK) :=
  ⟨keyOf c m, _, generate_key_eq c m h4, validate_keyOf c m h4 hm⟩

/-- Witness for C1: the round trip succeeds at customer `0001` and machine
`AB12CD34`. -/
theorem generate_validate_roundtrip_witness :
    ∃ key msgOK, generate_key (pyStr "0001") (pyStr "AB12CD34") =
        Except.ok key ∧
      validate_key key (pyStr "AB12CD34") = some (true, msgOK) :=
  generate_validate_roundtrip (pyStr "0001") (pyStr "AB12CD34")
    (by decide) (by decide)

/-- Counterexample to C1 as stated: the machine id `" ABCD"` has uppercased
length 5 ≥ 4, yet the generated key fails to validate against the same
machine id, because the key embeds the untrimmed prefix `" ABC"` while
validation trims the machine id. -/
theorem generate_validate_roundtrip_counterexample :
    4 ≤ (pyUpper (pyStr " ABCD")).length ∧
    generate_key (pyStr "0001") (pyStr " ABCD") =
      Except.ok (pyStr "AURA-0001- ABC-C8A1B9EE") ∧
    (validate_key (pyStr "AURA-0001- ABC-C8A1B9EE") (pyStr " ABCD")).map
      Prod.fst = some false :=
  ⟨by decide, by rfl, by decide⟩

/-- C2: `compute_signature` equals the spec-side formula (first 8 hex
characters of the uppercase MD5 hex digest of
`Secret + "-" + customer_id + "-" + machine_id` in UTF-8), its output has
exactly 8 characters, and it is deterministic: identical inputs yield
identical output. -/
theorem compute_signature_correct : ∀ c m : PyStr,
    compute_signature c m = compute_signature_spec c m ∧
    (compute_signature c m).length = 8 ∧
    (∀ c₂ m₂, c = c₂ → m = m₂ →
      compute_signature c m = compute_signature c₂ m₂) := by
  intro c m
  refine ⟨?_, length_compute_signature c m, fun c₂ m₂ hc hm => by rw [hc, hm]⟩
  rw [compute_signature_spec, show pyStr "-" = [45] from by decide]
  simp [compute_signature, List.map_take, List.append_assoc]

/-- Witness for C2, applied at customer `0001`, machine `AB12CD34`. -/
theorem compute_signature_correct_witness :
    compute_signature (pyStr "0001") (pyStr "AB12CD34") =
      compute_signature_spec (pyStr "0001") (pyStr "AB12CD34") ∧
    compute_signature (pyStr "0001") (pyStr "AB12CD34") =
      compute_signature (pyStr "0001") (pyStr "AB12CD34") :=
  ⟨(compute_signature_correct (pyStr "0001") (pyStr "AB12CD34")).1,
   (compute_signature_correct (pyStr "0001") (pyStr "AB12CD34")).2.2
     (pyStr "0001") (pyStr "AB12CD34") rfl rfl⟩

/-- C3: `validate_key` performs exactly the claimed check sequence: it
agrees everywhere with `validate_key_spec`, the step-by-step transcription
of the claim (normalization, then prefix, length, separators, machine
prefix, signature, in order, each failure with its distinct message). -/
theorem validate_key_matches_spec : ∀ key m : PyStr,
    validate_key key m = some (validate_key_spec key m) :=
  validate_key_refines

/-- C4: on any machine id of uppercased length ≥ 4, `generate_key` returns
a key of length exactly 23 that starts with `AURA-` and has `-` (codepoint
45) at indices 4, 9 and 14. -/
theorem generate_key_format (c m : PyStr) (h : 4 ≤ (pyUpper m).length) :
    ∃ key, generate_key c m = Except.ok key ∧ key.length = 23 ∧
      pyStartswith (pyStr "AURA-") key = true ∧
      key.getD 4 0 = 45 ∧ key.getD 9 0 = 45 ∧ key.getD 14 0 = 45 := by
  obtain ⟨c1, c2, c3, c4, p1, p2, p3, p4, s1, s2, s3, s4, s5, s6, s7, s8,
    hk, hc, hp, hs⟩ := keyOf_explicit c m h
  refine ⟨keyOf c m, generate_key_eq c m h, length_keyOf c m h,
    ?_, ?_, ?_, ?_⟩
  · rw [hk]
    simp [pyStartswith, pyStr_AURA]
  · rw [hk]; rfl
  · rw [hk]; rfl
  · rw [hk]; rfl

/-- Witness for C4 at customer `0001`, machine `AB12CD34`. -/
theorem generate_key_format_witness :
    ∃ key, generate_key (pyStr "0001") (pyStr "AB12CD34") = Except.ok key ∧
      key.length = 23 ∧ pyStartswith (pyStr "AURA-") key = true ∧
      key.getD 4 0 = 45 ∧ key.getD 9 0 = 45 ∧ key.getD 14 0 = 45 :=
  generate_key_format (pyStr "0001") (pyStr "AB12CD34") (by decide)

/-- C5: `generate_key` fails (with the `InvalidInput` error) exactly when
the uppercased machine id is shorter than 4 characters; it never fails with
the internal 23-length assertion. -/
theorem generate_key_error_characterization : ∀ c m : PyStr,
    ((∃ e, generate_key c m = .error e) ↔ (pyUpper m).length < 4) ∧
    (∀ msgA, generate_key c m ≠ .error (.assertionFailure msgA)) := by
  intro c m
  by_cases h : (pyUpper m).length < 4
  · constructor
    · exact iff_of_true ⟨_, generate_key_short c m h⟩ h
    · intro msgA hEq
      rw [generate_key_short c m h] at hEq
      simp at hEq
  · have h4 : 4 ≤ (pyUpper m).length := by omega
    rw [generate_key_eq c m h4]
    constructor
    · exact iff_of_false (fun ⟨e, he⟩ => Except.noConfusion he) h
    · intro msgA hEq
      exact Except.noConfusion hEq

/-- Witness for C5: a 2-character machine id makes `generate_key` fail. -/
theorem generate_key_error_characterization_witness :
    (∃ e, generate_key (pyStr "X") (pyStr "AB") = .error e) ∧
    generate_key (pyStr "X") (pyStr "AB") ≠
      .error (.assertionFailure (pyStr "")) :=
  ⟨(generate_key_error_characterization (pyStr "X") (pyStr "AB")).1.mpr
     (by decide),
   (generate_key_error_characterization (pyStr "X") (pyStr "AB")).2
     (pyStr "")⟩

/-- C6: `validate_key` is total — on every pair of input strings it
returns a boolean-and-message pair; in particular none of its character
indexings (modelled in `Option`) is ever out of range. -/
theorem validate_key_total : ∀ key m : PyStr,
    ∃ r : Bool × PyStr, validate_key key m = some r :=
  fun key m => ⟨validate_key_spec key m, validate_key_refines key m⟩

/-- C7: `generate_key` embeds, at positions 5-8 of the produced key, the
customer id normalized to exactly 4 uppercase-stable characters by
space-padding or truncation; in particular `generate_key "1" "AB12CD34"`
embeds `"1   "` (the digit followed by three spaces). -/
theorem generate_key_customer_padding :
    (∀ c m key : PyStr, generate_key c m = Except.ok key →
      List.take 4 (List.drop 5 key) = normCid c ∧
      (normCid c).length = 4 ∧ pyUpper (normCid c) = normCid c) ∧
    (∃ key1, generate_key (pyStr "1") (pyStr "AB12CD34") = Except.ok key1 ∧
      List.take 4 (List.drop 5 key1) = pyStr "1   ") := by
  constructor
  · intro c m key hok
    have h4 : 4 ≤ (pyUpper m).length := by
      by_contra hlt
      rw [generate_key_short c m (by omega)] at hok
      exact Except.noConfusion hok
    rw [generate_key_eq c m h4] at hok
    obtain rfl : keyOf c m = key := by
      exact (Except.ok.injEq _ _).mp hok
    refine ⟨?_, length_normCid c, pyUpper_normCid c⟩
    obtain ⟨c1, c2, c3, c4, p1, p2, p3, p4, s1, s2, s3, s4, s5, s6, s7, s8,
      hk, hc, hp, hs⟩ := keyOf_explicit c m h4
    rw [hk, hc]
    rfl
  · exact ⟨pyStr "AURA-1   -AB12-E4407A3D", by rfl, by decide⟩

/-- Witness for C7: the general padding fact applied to the generated key
for customer `1` and machine `AB12CD34`. -/
theorem generate_key_customer_padding_witness :
    List.take 4 (List.drop 5 (pyStr "AURA-1   -AB12-E4407A3D")) =
      normCid (pyStr "1") ∧
    (normCid (pyStr "1")).length = 4 ∧
    pyUpper (normCid (pyStr "1")) = normCid (pyStr "1") :=
  generate_key_customer_padding.1 (pyStr "1") (pyStr "AB12CD34")
    (pyStr "AURA-1   -AB12-E4407A3D") (by rfl)

/-- Witness for C8: mutating the first signature character (index 15,
`F` to `0`) of a valid normalized key makes validation fail. -/
theorem validate_key_single_edit_witness :
    (validate_key ((pyStr "AURA-0001-AB12-F78A950E").set 15 48)
        (pyStr "AB12CD34")).map Prod.fst = some false :=
  validate_key_single_edit (pyStr "AURA-0001-AB12-F78A950E")
    (pyStr "AB12CD34")
    (pyStr "Key gueltig fuer Machine AB12CD34 (Kunde: 0001)") 15 48
    (by decide) (by decide) (by decide) (by decide) (Or.inr (by decide))
    (by decide)

/-- Counterexample to C8 as stated: the key `" AURA-0001-AB12-F78A950E"`
(leading space) is valid for machine `AB12CD34`; replacing its first
character, the space (32), by a tab (9) — not a case variant — leaves the
key valid, because validation trims both before checking. -/
theorem validate_key_single_edit_counterexample :
    (validate_key (pyStr " AURA-0001-AB12-F78A950E")
        (pyStr "AB12CD34")).map Prod.fst = some true ∧
    (pyStr " AURA-0001-AB12-F78A950E").getD 0 0 = 32 ∧
    upperChar 9 ≠ upperChar 32 ∧
    (validate_key ((pyStr " AURA-0001-AB12-F78A950E").set 0 9)
        (pyStr "AB12CD34")).map Prod.fst = some true :=
  ⟨by decide, by decide, by decide, by decide⟩

/-- C9: the machine-id derivation of `verify_keys.py`, as a function of the
computer name and the volume-info output, always yields an 8-character
identifier equal to the first 8 hex characters of the uppercase MD5 hex
digest of the fingerprint `name|serial|AuRa_HW_v2`, where the serial is the
value of the matched 4+4 hex group and defaults to 0 when no match
exists. -/
theorem machine_id_characterization : ∀ name volOut : PyStr,
    (machine_id name volOut).length = 8 ∧
    machine_id name volOut =
      ((md5Hexdigest (utf8Encode (name ++ 124 ::
        natToDec (serialNum volOut) ++ 124 :: pyStr "AuRa_HW_v2"))).take
          8).map upperChar ∧
    (findSerial volOut = none → serialNum volOut = 0) ∧
    (∀ g1 g2, findSerial volOut = some (g1, g2) →
      serialNum volOut = hexToNat (g1 ++ g2)) := by
  intro name volOut
  refine ⟨?_, rfl, ?_, ?_⟩
  · simp only [machine_id, List.length_map, List.length_take,
      length_md5Hexdigest]
    omega
  · intro h
    rw [serialNum, h]
  · intro g1 g2 h
    rw [serialNum, h]

/-- Witness for C9: no-match input defaults the serial to 0; a matched
group is parsed as hex. -/
theorem machine_id_characterization_witness :
    serialNum (pyStr "no serial here") = 0 ∧
    serialNum (pyStr "Serial Number is AB12-CD34") =
      hexToNat (pyStr "AB12" ++ pyStr "CD34") :=
  ⟨(machine_id_characterization (pyStr "PC") (pyStr "no serial here")).2.2.1
     (by decide),
   (machine_id_characterization (pyStr "PC")
     (pyStr "Serial Number is AB12-CD34")).2.2.2 (pyStr "AB12")
     (pyStr "CD34") (by decide)⟩

/-- C10: `generate_key` does not trim its machine id while `validate_key`
does: for any machine id of uppercased length ≥ 4 whose first character is
whitespace, generation succeeds and embeds the whitespace at index 10 of
the key, but validating the generated key against the same machine id
returns `false` with the machine-mismatch message. -/
theorem generate_trim_asymmetry : ∀ (c m : PyStr) (w : Nat),
    m.head? = some w → isPySpace w = true → 4 ≤ (pyUpper m).length →
    ∃ key, generate_key c m = Except.ok key ∧
      key.getD 10 0 = upperChar w ∧ isPySpace (upperChar w) = true ∧
      ∃ msgF, validate_key key m = some (false, msgF) ∧
        pyStartswith (pyStr "Machine-ID stimmt nicht (") msgF = true := by
  intro c m w hw hsp h4
  obtain ⟨rest, hum⟩ : ∃ rest, pyUpper m = upperChar w :: rest := by
    have h := head_pyUpper hw
    cases hup : pyUpper m with
    | nil => rw [hup] at h; simp at h
    | cons a r =>
      rw [hup, List.head?_cons, Option.some.injEq] at h
      exact ⟨r, by rw [h]⟩
  refine ⟨keyOf c m, generate_key_eq c m h4, ?_, ?_, ?_⟩
  · obtain ⟨c1, c2, c3, c4, p1, p2, p3, p4, s1, s2, s3, s4, s5, s6, s7, s8,
      hk, hc, hp, hs⟩ := keyOf_explicit c m h4
    rw [hum, List.take_succ_cons, List.cons.injEq] at hp
    rw [hk]
    have hg : List.getD [65, 85, 82, 65, 45, c1, c2, c3, c4, 45, p1, p2, p3,
        p4, 45, s1, s2, s3, s4, s5, s6, s7, s8] 10 0 = p1 := rfl
    rw [hg, ← hp.1]
  · rw [isPySpace_upperChar]
    exact hsp
  · have hne : (pyUpper m).take 4 ≠ (pyStrip (pyUpper m)).take 4 := by
      refine take_four_ne_of_space_head h4 (fun x hx => ?_)
        (fun x hx => head_pyStrip hx)
      rw [hum, List.head?_cons, Option.some.injEq] at hx
      rw [← hx, isPySpace_upperChar]
      exact hsp
    rw [validate_keyOf_mismatch c m h4 hne]
    refine ⟨_, rfl, ?_⟩
    simp only [List.append_assoc]
    exact pyStartswith_append _ _

/-- Witness for C10 at customer `0001` and machine `" ABCD"`. -/
theorem generate_trim_asymmetry_witness :
    ∃ key, generate_key (pyStr "0001") (pyStr " ABCD") = Except.ok key ∧
      key.getD 10 0 = upperChar 32 ∧ isPySpace (upperChar 32) = true ∧
      ∃ msgF, validate_key key (pyStr " ABCD") = some (false, msgF) ∧
        pyStartswith (pyStr "Machine-ID stimmt nicht (") msgF = true :=
  generate_trim_asymmetry (pyStr "0001") (pyStr " ABCD") 32 (by decide)
    (by decide) (by decide)

end Aura
